import Mathlib

/-!
Shallow embedding of the feedback-channel core of the vso-agent build worker
(ServiceChannel, WebConsoleQueue, AsyncCommandQueue, LogPageQueue and the
drain protocol), together with theorems settling the frozen claims about it.
Definitions are translated from the TypeScript source; clearly marked
specification-side definitions are used only for refinement comparisons.
-/

/-! ## Timeline issues: ServiceChannel.addError / ServiceChannel.addWarning -/

/-- Issue severity tag. Modelled from the spec: the enum ifm.TaskIssueType
(file api/interfaces is not under src); it offers an Error and a Warning
severity. -/
inductive TaskIssueType
  | Error
  | Warning
  deriving DecidableEq, Repr

/-- The fields of ifm.TaskIssue that addError and addWarning populate
(the opaque data payload is dropped). -/
structure TaskIssue where
  category : String
  issueType : TaskIssueType
  message : String
  deriving DecidableEq, Repr

/-- One entry of ServiceChannel._issues: the per-record issue accumulator
created lazily by _getIssues. -/
structure IssueAcc where
  errorCount : Nat
  warningCount : Nat
  issues : List TaskIssue
  deriving DecidableEq, Repr

/-- The fields of a batched timeline record that addError and addWarning
touch. A record freshly created by the ConcurrentBatch factory carries only
its id, so these fields start out empty. -/
structure TimelineRecordB where
  issues : List TaskIssue
  errorCount : Nat
  warningCount : Nat
  deriving DecidableEq, Repr

def emptyAcc : IssueAcc := ⟨0, 0, []⟩

def emptyRecord : TimelineRecordB := ⟨[], 0, 0⟩

/-- The state of a ServiceChannel that the issue claims depend on:
the `_issues` side map and the timeline record queue's key-to-record map.
Lazy creation in `_getIssues` is modelled by a total map defaulting to
`emptyAcc`. -/
structure ChannelState where
  issuesMap : String → IssueAcc
  batch : String → Option TimelineRecordB

def initChannel : ChannelState := ⟨fun _ => emptyAcc, fun _ => none⟩

/-- Pointwise update of a total map. -/
def setMap {α : Type} (m : String → α) (k : String) (v : α) : String → α :=
  fun k2 => if k2 = k then v else m k2

/-- JavaScript truthiness of a number. -/
def jsTruthyNum (n : Nat) : Bool := n != 0

/-- The guard of the `if` in ServiceChannel.addError (and, with the warning
count, addWarning). The source text is
`current.errorCount < process.env.VSO_ERROR_COUNT ? process.env.VSO_ERROR_COUNT : 10`,
which by operator precedence parses as
`(current.errorCount < process.env.VSO_ERROR_COUNT) ? process.env.VSO_ERROR_COUNT : 10`;
the selected branch is then tested for truthiness by the `if`. The
environment variable is modelled as the numeric value of the configured
string, `none` when unset; a comparison against an unset (undefined) value
is false in JavaScript, and a set environment string is a non-empty string,
hence truthy. -/
def issueGuard (count : Nat) (envCap : Option Nat) : Bool :=
  match envCap with
  | none => jsTruthyNum 10
  | some v => if count < v then true else jsTruthyNum 10

/-- ServiceChannel.addError: reads the accumulator and the batched record,
conditionally pushes an Error issue and re-attaches the issue list to the
record, then increments the running error count unconditionally. -/
def addError (envCap : Option Nat) (s : ChannelState)
    (recordId category message : String) : ChannelState :=
  let current := s.issuesMap recordId
  let record := (s.batch recordId).getD emptyRecord
  let push := issueGuard current.errorCount envCap
  let issues2 :=
    if push then current.issues ++ [⟨category, TaskIssueType.Error, message⟩]
    else current.issues
  let record1 := if push then { record with issues := issues2 } else record
  let current2 : IssueAcc := ⟨current.errorCount + 1, current.warningCount, issues2⟩
  let record2 := { record1 with errorCount := current.errorCount + 1 }
  { issuesMap := setMap s.issuesMap recordId current2
    batch := setMap s.batch recordId (some record2) }

/-- ServiceChannel.addWarning: same shape as addError but guarded by the
warning count and cap; the pushed issue is tagged
`ifm.TaskIssueType.Error` exactly as in the source. -/
def addWarning (envCap : Option Nat) (s : ChannelState)
    (recordId category message : String) : ChannelState :=
  let current := s.issuesMap recordId
  let record := (s.batch recordId).getD emptyRecord
  let push := issueGuard current.warningCount envCap
  let issues2 :=
    if push then current.issues ++ [⟨category, TaskIssueType.Error, message⟩]
    else current.issues
  let record1 := if push then { record with issues := issues2 } else record
  let current2 : IssueAcc := ⟨current.errorCount, current.warningCount + 1, issues2⟩
  let record2 := { record1 with warningCount := current.warningCount + 1 }
  { issuesMap := setMap s.issuesMap recordId current2
    batch := setMap s.batch recordId (some record2) }

/-- Operations on the channel that touch issue state. `flushTimeline` is the
ConcurrentBatch snapshot-and-clear of the timeline record map; the `_issues`
side map survives it. -/
inductive ChannelOp
  | addError (recordId category message : String)
  | addWarning (recordId category message : String)
  | flushTimeline
  deriving DecidableEq, Repr

def channelStep (envE envW : Option Nat) (s : ChannelState) : ChannelOp → ChannelState
  | .addError r c m => addError envE s r c m
  | .addWarning r c m => addWarning envW s r c m
  | .flushTimeline => { s with batch := fun _ => none }

def runChannel (envE envW : Option Nat) (s : ChannelState) : List ChannelOp → ChannelState
  | [] => s
  | op :: ops => runChannel envE envW (channelStep envE envW s op) ops

/-! ## Console lines: ServiceChannel.queueConsoleLine / WebConsoleQueue -/

/-- WebConsoleQueue.push: applies the job masking transform and appends to
the backing ConcurrentArray. -/
def wcqPush (mask : String → String) (q : List String) (line : String) : List String :=
  q ++ [mask line]

/-- WebConsoleQueue.section: pushes the line prefixed with the section
marker, after masking it once itself; push then masks the whole string
again. -/
def wcqSection (mask : String → String) (q : List String) (line : String) : List String :=
  wcqPush mask q ("[section] " ++ mask line)

/-- ServiceChannel.queueConsoleLine: truncates a long line to 509
characters plus an ellipsis, then hands it to WebConsoleQueue.push. -/
def queueConsoleLine (mask : String → String) (q : List String) (line : String) : List String :=
  wcqPush mask q (if line.length > 512 then line.take 509 ++ "..." else line)

/-- The two entry points that put strings into the console queue. -/
inductive ConsoleOp
  | plain (line : String)
  | sectionLine (line : String)
  deriving DecidableEq, Repr

def consoleStep (mask : String → String) (q : List String) : ConsoleOp → List String
  | .plain line => queueConsoleLine mask q line
  | .sectionLine line => wcqSection mask q line

def runConsole (mask : String → String) (q : List String) : List ConsoleOp → List String
  | [] => q
  | op :: ops => runConsole mask (consoleStep mask q op) ops

/-! ## Drain callback: ServiceChannel.drain and the Q promise chain -/

/-- The record of callback invocations made by drain: `some e` for
`callback(err)`, `none` for `callback(null)`. -/
abbrev DrainCalls := List (Option String)

/-- Q.all over the settled outcomes of the three waitForEmpty promises:
rejects with the first observed rejection, fulfills otherwise. -/
def qAll : List (Except String Unit) → Except String Unit
  | [] => .ok ()
  | p :: rest =>
    match p with
    | .error e => .error e
    | .ok _ => qAll rest

/-- promise.fail(h): when the promise rejects, the handler runs and its
return value (here `undefined`, after invoking the drain callback) fulfills
the chained promise; a fulfilled promise passes through. The first
component records the callback invocations the handler performed. -/
def qFail (p : Except String Unit) (h : String → DrainCalls) :
    DrainCalls × Except String Unit :=
  match p with
  | .error e => (h e, .ok ())
  | .ok u => ([], .ok u)

/-- promise.then(h): when the incoming promise is fulfilled, the handler
runs; a rejection passes through. -/
def qThen (p : DrainCalls × Except String Unit) (h : Unit → DrainCalls) :
    DrainCalls × Except String Unit :=
  match p with
  | (calls, .ok u) => (calls ++ h u, .ok ())
  | (calls, .error e) => (calls, .error e)

/-- ServiceChannel.drain, outcome view: given the settled outcomes of the
console, log page and timeline waitForEmpty promises, the chain
`Q.all([...]).fail(err => callback(err)).then(_ => callback(null))`
produces this sequence of callback invocations. -/
def drainCallbackLog (c l t : Except String Unit) : DrainCalls :=
  (qThen (qFail (qAll [c, l, t]) (fun e => [some e])) (fun _ => [none])).1

/-! ## Drain ordering: ServiceChannel.drain as an event trace -/

inductive QueueId
  | console
  | logPage
  | timeline
  deriving DecidableEq, Repr

inductive DrainEvent
  | waitForEmpty (q : QueueId)
  | finishAdding (q : QueueId)
  | resolved (q : QueueId)
  deriving DecidableEq, Repr

/-- The synchronous body of drain, in source order: obtain the three
waitForEmpty promises, then immediately call finishAdding on the console
queue and the log page queue. -/
def drainSync : List DrainEvent :=
  [.waitForEmpty .console, .waitForEmpty .logPage, .waitForEmpty .timeline,
   .finishAdding .console, .finishAdding .logPage]

/-- `logFinished.then(() => this._timelineRecordQueue.finishAdding())`:
the continuation fires at the point where the log page queue's completion
resolves, so finishAdding on the timeline queue is inserted directly after
the first such resolution event of the ambient schedule. -/
def attachLogContinuation : List DrainEvent → List DrainEvent
  | [] => []
  | e :: rest =>
    if e = .resolved .logPage then e :: .finishAdding .timeline :: rest
    else e :: attachLogContinuation rest

/-- A whole drain execution: the synchronous body followed by the ambient
asynchronous schedule with the timeline finishAdding continuation attached. -/
def runDrain (async : List DrainEvent) : List DrainEvent :=
  drainSync ++ attachLogContinuation async

/-! ## Sequential command queue: AsyncCommandQueue -/

/-- An async command as the queue observes it: an identifier and the
outcome its runCommandAsync work would produce. -/
structure AsyncCmd where
  id : Nat
  outcome : Except String Unit
  deriving Repr

/-- The cross-flush fields of an AsyncCommandQueue. -/
structure CmdQueueState where
  failed : Bool
  errorMessage : Option String
  deriving DecidableEq, Repr

/-- Queue state paired with the ids of the commands whose runCommandAsync
work has actually been invoked. -/
structure CmdRun where
  st : CmdQueueState
  invoked : List Nat
  deriving Repr

def initCmdRun : CmdRun := ⟨⟨false, none⟩, []⟩

/-- async.forEachSeries: runs the step over the items in order; an error
passed by the step aborts the iteration and is handed to the final
callback. -/
def forEachSeriesE {σ α ε : Type} (step : σ → α → σ × Option ε) :
    σ → List α → σ × Option ε
  | s, [] => (s, none)
  | s, a :: rest =>
    match step s a with
    | (s2, some e) => (s2, some e)
    | (s2, none) => forEachSeriesE step s2 rest

/-- The iteratee of AsyncCommandQueue._processQueue: an already-failed
queue consumes the command without invoking it; otherwise the command
runs, a failure latches `failed` and `errorMessage`, and `.fin` always
calls `done(null)`. -/
def cmdStep (r : CmdRun) (c : AsyncCmd) : CmdRun × Option String :=
  if r.st.failed then (r, none)
  else
    match c.outcome with
    | .ok _ => (⟨r.st, r.invoked ++ [c.id]⟩, none)
    | .error m => (⟨⟨true, some m⟩, r.invoked ++ [c.id]⟩, none)

/-- AsyncCommandQueue._processQueue: empty snapshots succeed immediately;
otherwise the commands are run in series and the final callback reports
success regardless (the queue never fails). The second component is the
error handed to the flush callback. -/
def cmdProcessQueue (r : CmdRun) (cmds : List AsyncCmd) : CmdRun × Option String :=
  match cmds with
  | [] => (r, none)
  | _ :: _ => ((forEachSeriesE cmdStep r cmds).1, none)

/-- Successive flush snapshots of one AsyncCommandQueue instance. -/
def cmdRunBatches (r : CmdRun) : List (List AsyncCmd) → CmdRun
  | [] => r
  | b :: bs => cmdRunBatches (cmdProcessQueue r b).1 bs

def isOkCmd (c : AsyncCmd) : Bool :=
  match c.outcome with
  | .ok _ => true
  | .error _ => false

/-- Specification-side characterisation of which commands get their work
invoked: every command up to and including the first failing one. -/
def specInvoked (cmds : List AsyncCmd) : List Nat :=
  match cmds.dropWhile isOkCmd with
  | [] => cmds.map (·.id)
  | c :: _ => (cmds.takeWhile isOkCmd).map (·.id) ++ [c.id]

/-- Specification-side characterisation of the final failure fields: set by
the first failing command, stable from then on. The initial error message
is threaded to state that success leaves it untouched. -/
def specStateFrom (em : Option String) (cmds : List AsyncCmd) : CmdQueueState :=
  match cmds.dropWhile isOkCmd with
  | [] => ⟨false, em⟩
  | c :: _ =>
    ⟨true, match c.outcome with
           | .error m => some m
           | .ok _ => none⟩

/-! ## Log page queue: LogPageQueue._processQueue -/

/-- cm.ILogPageInfo, restricted to the fields the pipeline reads: the
staged page path and the owning timeline record id. -/
structure LogPageInfo where
  pagePath : String
  recordId : String
  deriving DecidableEq, Repr

/-- The remote operations the pipeline consumes, as settled outcomes:
createLog takes the server log path and yields a log id or an error;
uploadLogFile yields an optional error (which the source swallows). -/
structure LogEnv where
  createLog : String → Except String Nat
  uploadLog : Nat → String → Option String

/-- Observable actions of one flush of the log page queue. ctxError is a
workerCtx.error report; ctxErrorPage is the JSON dump of the failing page. -/
inductive LogEvent
  | createLogCall (path : String)
  | uploadLogCall (logId : Nat) (pagePath : String) (result : Option String)
  | setLogIdCall (recordId : String) (logId : Option Nat)
  | ctxError (msg : String)
  | ctxErrorPage (page : LogPageInfo)
  deriving DecidableEq, Repr

/-- serverLogPath = 'logs\' + recordId. -/
def logPath (recordId : String) : String := "logs\\" ++ recordId

/-- LogPageQueue._recordToLogIdMap, as an association list (later
insertions shadow, lookup takes the first hit). -/
abbrev LogIdMap := List (String × Nat)

def lookupId : LogIdMap → String → Option Nat
  | [], _ => none
  | (k, v) :: m, r => if r = k then some v else lookupId m r

/-- hasOwnProperty on the record-to-log-id map. -/
def hasKey (m : LogIdMap) (k : String) : Bool := (lookupId m k).isSome

/-- JavaScript truthiness of the looked-up log id (`if (logId)`): an
absent id and an id of 0 are both falsy. -/
def jsTruthyOptNat : Option Nat → Bool
  | some n => n != 0
  | none => false

/-- Step 1 of the per-page series: create the log record once per record
id; a creation failure passes the error to the series callback, success
memoizes the returned id. -/
def logStep1 (env : LogEnv) (m : LogIdMap) (p : LogPageInfo) :
    LogIdMap × List LogEvent × Option String :=
  if hasKey m p.recordId then (m, [], none)
  else
    match env.createLog (logPath p.recordId) with
    | .error e => (m, [.createLogCall (logPath p.recordId)], some e)
    | .ok v => ((p.recordId, v) :: m, [.createLogCall (logPath p.recordId)], none)

/-- Steps 2 and 3 of the per-page series: upload the page under the known
log id (the upload outcome is swallowed; a falsy id skips the upload with
an error report), then associate the log id back onto the timeline record.
Neither step passes an error to the series callback. -/
def logSteps23 (env : LogEnv) (m : LogIdMap) (p : LogPageInfo) : List LogEvent :=
  let logId := lookupId m p.recordId
  (if jsTruthyOptNat logId then
     [LogEvent.uploadLogCall (logId.getD 0) p.pagePath
        (env.uploadLog (logId.getD 0) p.pagePath)]
   else
     [LogEvent.ctxError "Skipping log upload.  Log record does not exist."])
  ++ [LogEvent.setLogIdCall p.recordId logId]

/-- One page of LogPageQueue._processQueue: the three-step async.series;
on a step error the series final callback reports the error message and
the page, then hands the error to the forEachSeries done callback. -/
def processPage (env : LogEnv) (m : LogIdMap) (p : LogPageInfo) :
    LogIdMap × List LogEvent × Option String :=
  match logStep1 env m p with
  | (m1, tr1, some e) => (m1, tr1 ++ [.ctxError e, .ctxErrorPage p], some e)
  | (m1, tr1, none) => (m1, tr1 ++ logSteps23 env m1 p, none)

/-- LogPageQueue._processQueue: async.forEachSeries over the snapshot; a
page whose series errored aborts the iteration and the error reaches the
flush callback. The empty snapshot succeeds immediately. -/
def processPages (env : LogEnv) : LogIdMap → List LogPageInfo →
    LogIdMap × List LogEvent × Option String
  | m, [] => (m, [], none)
  | m, p :: rest =>
    match processPage env m p with
    | (m1, tr1, some e) => (m1, tr1, some e)
    | (m1, tr1, none) =>
      match processPages env m1 rest with
      | (m2, tr2, r) => (m2, tr1 ++ tr2, r)

/-- Successive flush snapshots of one LogPageQueue instance. A flush error
goes to the ConcurrentArray error sink and does not stop later flushes;
the memoization map persists across flushes. -/
def runLogBatches (env : LogEnv) : LogIdMap → List (List LogPageInfo) →
    LogIdMap × List LogEvent
  | m, [] => (m, [])
  | m, b :: bs =>
    match processPages env m b with
    | (m1, tr1, _err) =>
      match runLogBatches env m1 bs with
      | (m2, tr2) => (m2, tr1 ++ tr2)

/-- Number of create-log remote calls for a given server log path in a
trace. -/
def countCreate : List LogEvent → String → Nat
  | [], _ => 0
  | e :: tr, path =>
    (if e = LogEvent.createLogCall path then 1 else 0) + countCreate tr path

/-! ## Theorems: console queue -/

/-- Claim C7: for every console line submitted through the delivery
channel, the value stored in the console queue is the masking transform
applied to the line truncated to 509 characters plus an ellipsis when the
line exceeds 512 characters, and to the unmodified line otherwise
(truncate, then mask, then append). -/
theorem queueConsoleLine_truncates_then_masks (mask : String → String)
    (q : List String) (line : String) :
    (line.length > 512 →
      queueConsoleLine mask q line = q ++ [mask (line.take 509 ++ "...")]) ∧
    (line.length ≤ 512 →
      queueConsoleLine mask q line = q ++ [mask line]) := by
  constructor
  · intro h
    simp [queueConsoleLine, wcqPush, h]
  · intro h
    simp [queueConsoleLine, wcqPush, show ¬ line.length > 512 from by omega]

set_option maxRecDepth 4096 in
theorem queueConsoleLine_truncates_then_masks_witness :
    (String.mk (List.replicate 513 'a')).length > 512 ∧
    queueConsoleLine id [] (String.mk (List.replicate 513 'a')) =
      [] ++ [id ((String.mk (List.replicate 513 'a')).take 509 ++ "...")] :=
  ⟨by decide,
   (queueConsoleLine_truncates_then_masks id [] (String.mk (List.replicate 513 'a'))).1
     (by decide)⟩

theorem runConsole_all_masked (mask : String → String) :
    ∀ (ops : List ConsoleOp) (q : List String), (∀ e ∈ q, ∃ x, mask x = e) →
      ∀ e ∈ runConsole mask q ops, ∃ x, mask x = e := by
  intro ops
  induction ops with
  | nil => intro q hq e he; exact hq e he
  | cons op rest ih =>
    intro q hq e he
    refine ih _ ?_ e he
    intro e2 he2
    cases op with
    | plain line =>
      simp only [consoleStep, queueConsoleLine, wcqPush, List.mem_append,
        List.mem_singleton] at he2
      rcases he2 with h | h
      · exact hq e2 h
      · exact ⟨_, h.symm⟩
    | sectionLine line =>
      simp only [consoleStep, wcqSection, wcqPush, List.mem_append,
        List.mem_singleton] at he2
      rcases he2 with h | h
      · exact hq e2 h
      · exact ⟨_, h.symm⟩

/-- Claim C10: every string stored in the console queue's backing list has
passed through the masking transform at least once, and a line submitted
via section is stored as the mask applied twice:
mask of the section marker prepended to the masked line. -/
theorem consoleQueue_masked_and_section_double_mask (mask : String → String) :
    (∀ (ops : List ConsoleOp), ∀ e ∈ runConsole mask [] ops, ∃ x, mask x = e) ∧
    (∀ (q : List String) (line : String),
      wcqSection mask q line = q ++ [mask ("[section] " ++ mask line)]) := by
  constructor
  · intro ops e he
    exact runConsole_all_masked mask ops [] (by intro e2 he2; simp at he2) e he
  · intro q line
    rfl

theorem consoleQueue_masked_and_section_double_mask_witness :
    ∃ x, (fun s => String.append "#" s) x = "#[section] #s" :=
  (consoleQueue_masked_and_section_double_mask (fun s => String.append "#" s)).1
    [ConsoleOp.sectionLine "s"] "#[section] #s" (by decide)

/-! ## Theorems: sequential command queue flush outcome -/

/-- Claim C8: the sequential command queue's flush always hands a success
outcome (null error) to its completion callback, for every snapshot,
including snapshots containing failing commands; command failure is
surfaced only through the failed and errorMessage fields. -/
theorem asyncCommandQueue_flush_reports_success (r : CmdRun) (cmds : List AsyncCmd) :
    (cmdProcessQueue r cmds).2 = none := by
  cases cmds <;> rfl

/-! ## Theorems: drain callback invocation -/

/-- Claim C3, settled against the code: when one of the three queue
completions fails, the chain fail-then-then invokes the drain callback
twice, first with the failure and then with a success outcome, because the
fail handler fulfills the chained promise and the following then handler
also runs; on all-success it is invoked exactly once. The claim says the
callback is invoked exactly once and never with both failure and success. -/
theorem drain_callback_double_invoke_on_failure :
    drainCallbackLog (.ok ()) (.error "boom") (.ok ()) = [some "boom", none] ∧
    drainCallbackLog (.ok ()) (.ok ()) (.ok ()) = [none] :=
  ⟨rfl, rfl⟩

/-! ## Theorems: issue accumulation -/

/-- Claim C1, settled against the code: with the cap environment variable
unset (the default configuration), eleven addError calls on one record
store all eleven issues in the accumulator and on the batched timeline
record, exceeding the documented cap of ten, while the error count also
reaches eleven. The guard parses as a comparison whose result selects a
truthy value either way, so no issue is ever dropped. -/
theorem addError_cap_not_enforced :
    ((runChannel none none initChannel
        (List.replicate 11 (ChannelOp.addError "r1" "c" "m"))).issuesMap "r1").issues.length
      = 11 ∧
    ((runChannel none none initChannel
        (List.replicate 11 (ChannelOp.addError "r1" "c" "m"))).issuesMap "r1").errorCount
      = 11 ∧
    (((runChannel none none initChannel
        (List.replicate 11 (ChannelOp.addError "r1" "c" "m"))).batch "r1").getD
          emptyRecord).issues.length = 11 := by
  refine ⟨?_, ?_, ?_⟩ <;> decide

def allErrorIssues (l : List TaskIssue) : Prop :=
  ∀ i ∈ l, i.issueType = TaskIssueType.Error

/-- Every issue held anywhere in the channel state carries the Error tag. -/
def channelIssuesErrorOnly (s : ChannelState) : Prop :=
  (∀ r, allErrorIssues (s.issuesMap r).issues) ∧
  (∀ r rec, s.batch r = some rec → allErrorIssues rec.issues)


theorem addError_issuesMap_self (envCap : Option Nat) (s : ChannelState)
    (rid cat msg : String) :
    (addError envCap s rid cat msg).issuesMap rid =
      ⟨(s.issuesMap rid).errorCount + 1, (s.issuesMap rid).warningCount,
       if issueGuard (s.issuesMap rid).errorCount envCap
       then (s.issuesMap rid).issues ++ [⟨cat, TaskIssueType.Error, msg⟩]
       else (s.issuesMap rid).issues⟩ := by
  by_cases hg : issueGuard (s.issuesMap rid).errorCount envCap <;>
    simp [addError, setMap, hg]

theorem addError_issuesMap_other (envCap : Option Nat) (s : ChannelState)
    (rid cat msg r : String) (hr : r ≠ rid) :
    (addError envCap s rid cat msg).issuesMap r = s.issuesMap r := by
  simp [addError, setMap, hr]

theorem addError_batch_self (envCap : Option Nat) (s : ChannelState)
    (rid cat msg : String) :
    (addError envCap s rid cat msg).batch rid = some
      ⟨if issueGuard (s.issuesMap rid).errorCount envCap
        then (s.issuesMap rid).issues ++ [⟨cat, TaskIssueType.Error, msg⟩]
        else ((s.batch rid).getD emptyRecord).issues,
       (s.issuesMap rid).errorCount + 1,
       ((s.batch rid).getD emptyRecord).warningCount⟩ := by
  by_cases hg : issueGuard (s.issuesMap rid).errorCount envCap <;>
    simp [addError, setMap, hg]

theorem addError_batch_other (envCap : Option Nat) (s : ChannelState)
    (rid cat msg r : String) (hr : r ≠ rid) :
    (addError envCap s rid cat msg).batch r = s.batch r := by
  simp [addError, setMap, hr]

theorem addWarning_issuesMap_self (envCap : Option Nat) (s : ChannelState)
    (rid cat msg : String) :
    (addWarning envCap s rid cat msg).issuesMap rid =
      ⟨(s.issuesMap rid).errorCount, (s.issuesMap rid).warningCount + 1,
       if issueGuard (s.issuesMap rid).warningCount envCap
       then (s.issuesMap rid).issues ++ [⟨cat, TaskIssueType.Error, msg⟩]
       else (s.issuesMap rid).issues⟩ := by
  by_cases hg : issueGuard (s.issuesMap rid).warningCount envCap <;>
    simp [addWarning, setMap, hg]

theorem addWarning_issuesMap_other (envCap : Option Nat) (s : ChannelState)
    (rid cat msg r : String) (hr : r ≠ rid) :
    (addWarning envCap s rid cat msg).issuesMap r = s.issuesMap r := by
  simp [addWarning, setMap, hr]

theorem addWarning_batch_self (envCap : Option Nat) (s : ChannelState)
    (rid cat msg : String) :
    (addWarning envCap s rid cat msg).batch rid = some
      ⟨if issueGuard (s.issuesMap rid).warningCount envCap
        then (s.issuesMap rid).issues ++ [⟨cat, TaskIssueType.Error, msg⟩]
        else ((s.batch rid).getD emptyRecord).issues,
       ((s.batch rid).getD emptyRecord).errorCount,
       (s.issuesMap rid).warningCount + 1⟩ := by
  by_cases hg : issueGuard (s.issuesMap rid).warningCount envCap <;>
    simp [addWarning, setMap, hg]

theorem addWarning_batch_other (envCap : Option Nat) (s : ChannelState)
    (rid cat msg r : String) (hr : r ≠ rid) :
    (addWarning envCap s rid cat msg).batch r = s.batch r := by
  simp [addWarning, setMap, hr]

theorem addError_preserves_error_only (envCap : Option Nat) (s : ChannelState)
    (rid cat msg : String) (h : channelIssuesErrorOnly s) :
    channelIssuesErrorOnly (addError envCap s rid cat msg) := by
  obtain ⟨h1, h2⟩ := h
  have hrec0 : allErrorIssues ((s.batch rid).getD emptyRecord).issues := by
    cases hb : s.batch rid with
    | none => intro i hi; simp [emptyRecord] at hi
    | some rec0 => simpa using h2 rid rec0 hb
  have hiss : allErrorIssues
      (if issueGuard (s.issuesMap rid).errorCount envCap
       then (s.issuesMap rid).issues ++ [⟨cat, TaskIssueType.Error, msg⟩]
       else (s.issuesMap rid).issues) := by
    split
    · intro i hi
      rcases List.mem_append.mp hi with hi | hi
      · exact h1 rid i hi
      · simp at hi; subst hi; rfl
    · exact h1 rid
  constructor
  · intro r
    by_cases hr : r = rid
    · subst hr
      rw [addError_issuesMap_self]
      exact hiss
    · rw [addError_issuesMap_other envCap s rid cat msg r hr]
      exact h1 r
  · intro r rec hrec
    by_cases hr : r = rid
    · subst hr
      rw [addError_batch_self] at hrec
      obtain rfl := (Option.some.injEq _ _).mp hrec
      intro i hi
      simp only at hi
      split at hi
      · rcases List.mem_append.mp hi with hi | hi
        · exact h1 _ i hi
        · simp at hi; subst hi; rfl
      · exact hrec0 i hi
    · rw [addError_batch_other envCap s rid cat msg r hr] at hrec
      exact h2 r rec hrec

theorem addWarning_preserves_error_only (envCap : Option Nat) (s : ChannelState)
    (rid cat msg : String) (h : channelIssuesErrorOnly s) :
    channelIssuesErrorOnly (addWarning envCap s rid cat msg) := by
  obtain ⟨h1, h2⟩ := h
  have hrec0 : allErrorIssues ((s.batch rid).getD emptyRecord).issues := by
    cases hb : s.batch rid with
    | none => intro i hi; simp [emptyRecord] at hi
    | some rec0 => simpa using h2 rid rec0 hb
  have hiss : allErrorIssues
      (if issueGuard (s.issuesMap rid).warningCount envCap
       then (s.issuesMap rid).issues ++ [⟨cat, TaskIssueType.Error, msg⟩]
       else (s.issuesMap rid).issues) := by
    split
    · intro i hi
      rcases List.mem_append.mp hi with hi | hi
      · exact h1 rid i hi
      · simp at hi; subst hi; rfl
    · exact h1 rid
  constructor
  · intro r
    by_cases hr : r = rid
    · subst hr
      rw [addWarning_issuesMap_self]
      exact hiss
    · rw [addWarning_issuesMap_other envCap s rid cat msg r hr]
      exact h1 r
  · intro r rec hrec
    by_cases hr : r = rid
    · subst hr
      rw [addWarning_batch_self] at hrec
      obtain rfl := (Option.some.injEq _ _).mp hrec
      intro i hi
      simp only at hi
      split at hi
      · rcases List.mem_append.mp hi with hi | hi
        · exact h1 _ i hi
        · simp at hi; subst hi; rfl
      · exact hrec0 i hi
    · rw [addWarning_batch_other envCap s rid cat msg r hr] at hrec
      exact h2 r rec hrec

theorem channelStep_preserves_error_only (envE envW : Option Nat) (s : ChannelState)
    (op : ChannelOp) (h : channelIssuesErrorOnly s) :
    channelIssuesErrorOnly (channelStep envE envW s op) := by
  cases op with
  | addError rid cat msg => exact addError_preserves_error_only envE s rid cat msg h
  | addWarning rid cat msg => exact addWarning_preserves_error_only envW s rid cat msg h
  | flushTimeline =>
    refine ⟨h.1, ?_⟩
    intro r rec hrec
    simp [channelStep] at hrec

/-- Claim C9: every issue recorded by addWarning is stored with issue type
Error, identical to issues recorded by addError; no operation sequence on
the delivery channel ever stores an issue tagged with the warning issue
type, neither in the per-record accumulator nor on a batched timeline
record. -/
theorem channel_issues_always_error_type (envE envW : Option Nat)
    (ops : List ChannelOp) (r : String) :
    (∀ i ∈ ((runChannel envE envW initChannel ops).issuesMap r).issues,
       i.issueType = TaskIssueType.Error) ∧
    (∀ rec, (runChannel envE envW initChannel ops).batch r = some rec →
       ∀ i ∈ rec.issues, i.issueType = TaskIssueType.Error) := by
  have main : ∀ (ops2 : List ChannelOp) (s : ChannelState), channelIssuesErrorOnly s →
      channelIssuesErrorOnly (runChannel envE envW s ops2) := by
    intro ops2
    induction ops2 with
    | nil => intro s hs; exact hs
    | cons op rest ih =>
      intro s hs
      exact ih _ (channelStep_preserves_error_only envE envW s op hs)
  have h0 : channelIssuesErrorOnly initChannel := by
    constructor
    · intro r2 i hi; simp [initChannel, emptyAcc] at hi
    · intro r2 rec hrec; simp [initChannel] at hrec
  obtain ⟨h1, h2⟩ := main ops initChannel h0
  exact ⟨h1 r, h2 r⟩

theorem channel_issues_always_error_type_witness :
    TaskIssue.issueType ⟨"c", TaskIssueType.Error, "m"⟩ = TaskIssueType.Error :=
  (channel_issues_always_error_type none none [ChannelOp.addWarning "r" "c" "m"] "r").1
    ⟨"c", TaskIssueType.Error, "m"⟩ (by decide)

/-! ## Theorems: drain ordering -/

theorem attachLogContinuation_split :
    ∀ (async : List DrainEvent),
      DrainEvent.resolved QueueId.logPage ∈ async →
      DrainEvent.finishAdding QueueId.timeline ∉ async →
      ∃ l1 l2, attachLogContinuation async =
          l1 ++ DrainEvent.resolved QueueId.logPage ::
            DrainEvent.finishAdding QueueId.timeline :: l2 ∧
        DrainEvent.finishAdding QueueId.timeline ∉ l1 := by
  intro async
  induction async with
  | nil => intro hmem _; simp at hmem
  | cons e rest ih =>
    intro hmem hnot
    by_cases he : e = DrainEvent.resolved QueueId.logPage
    · subst he
      refine ⟨[], rest, ?_, by simp⟩
      simp [attachLogContinuation]
    · have hmem2 : DrainEvent.resolved QueueId.logPage ∈ rest := by
        rcases List.mem_cons.mp hmem with h | h
        · exact absurd h.symm he
        · exact h
      have hnot2 : DrainEvent.finishAdding QueueId.timeline ∉ rest := by
        intro hc; exact hnot (List.mem_cons_of_mem e hc)
      obtain ⟨l1, l2, heq, hl1⟩ := ih hmem2 hnot2
      refine ⟨e :: l1, l2, ?_, ?_⟩
      · simp [attachLogContinuation, he, heq]
      · intro hc
        rcases List.mem_cons.mp hc with h | h
        · exact hnot (by simp [← h])
        · exact hl1 h

/-- Claim C4: in every drain execution, finishAdding on the timeline
record queue runs strictly after (in fact immediately after) the log page
queue's waitForEmpty completion resolves and never before it, while
finishAdding on the console queue and the log page queue is part of the
synchronous start of drain, before any completion resolves. -/
theorem drain_timeline_finishAdding_after_log_resolved (async : List DrainEvent)
    (hnot : DrainEvent.finishAdding QueueId.timeline ∉ async)
    (hmem : DrainEvent.resolved QueueId.logPage ∈ async) :
    ∃ l1 l2,
      runDrain async = (drainSync ++ l1) ++ DrainEvent.resolved QueueId.logPage ::
          DrainEvent.finishAdding QueueId.timeline :: l2 ∧
      DrainEvent.finishAdding QueueId.timeline ∉ drainSync ++ l1 ∧
      DrainEvent.finishAdding QueueId.console ∈ drainSync ∧
      DrainEvent.finishAdding QueueId.logPage ∈ drainSync ∧
      ∀ q, DrainEvent.resolved q ∉ drainSync := by
  obtain ⟨l1, l2, heq, hl1⟩ := attachLogContinuation_split async hmem hnot
  refine ⟨l1, l2, ?_, ?_, by decide, by decide, ?_⟩
  · simp [runDrain, heq]
  · intro hc
    rcases List.mem_append.mp hc with h | h
    · revert h; decide
    · exact hl1 h
  · intro q hc
    cases q <;> revert hc <;> decide

theorem drain_timeline_finishAdding_after_log_resolved_witness :
    DrainEvent.finishAdding QueueId.timeline ∉
        [DrainEvent.resolved QueueId.console, DrainEvent.resolved QueueId.logPage,
         DrainEvent.resolved QueueId.timeline] ∧
    (∃ l1 l2,
      runDrain [DrainEvent.resolved QueueId.console, DrainEvent.resolved QueueId.logPage,
                DrainEvent.resolved QueueId.timeline] =
        (drainSync ++ l1) ++ DrainEvent.resolved QueueId.logPage ::
          DrainEvent.finishAdding QueueId.timeline :: l2 ∧
      DrainEvent.finishAdding QueueId.timeline ∉ drainSync ++ l1 ∧
      DrainEvent.finishAdding QueueId.console ∈ drainSync ∧
      DrainEvent.finishAdding QueueId.logPage ∈ drainSync ∧
      ∀ q, DrainEvent.resolved q ∉ drainSync) :=
  ⟨by decide,
   drain_timeline_finishAdding_after_log_resolved
     [DrainEvent.resolved QueueId.console, DrainEvent.resolved QueueId.logPage,
      DrainEvent.resolved QueueId.timeline] (by decide) (by decide)⟩

/-! ## Theorems: sequential command queue fail-fast behaviour -/

/-- Folding the command iteratee over a list; the iteratee never hands an
error to the series, so this is the state forEachSeries produces. -/
def cmdFold (r : CmdRun) (cmds : List AsyncCmd) : CmdRun :=
  cmds.foldl (fun r2 c => (cmdStep r2 c).1) r

theorem cmdFold_cons (r : CmdRun) (c : AsyncCmd) (cmds : List AsyncCmd) :
    cmdFold r (c :: cmds) = cmdFold (cmdStep r c).1 cmds := rfl

theorem cmdFold_failed : ∀ (cmds : List AsyncCmd) (r : CmdRun),
    r.st.failed = true → cmdFold r cmds = r := by
  intro cmds
  induction cmds with
  | nil => intro r _; rfl
  | cons c rest ih =>
    intro r hf
    have hstep : cmdStep r c = (r, none) := by simp [cmdStep, hf]
    rw [cmdFold_cons, hstep]
    exact ih r hf

theorem forEachSeriesE_cmdStep : ∀ (cmds : List AsyncCmd) (r : CmdRun),
    forEachSeriesE cmdStep r cmds = (cmdFold r cmds, none) := by
  intro cmds
  induction cmds with
  | nil => intro r; rfl
  | cons c rest ih =>
    intro r
    have h2 : (cmdStep r c).2 = none := by
      unfold cmdStep; split
      · rfl
      · cases c.outcome <;> rfl
    cases hstep : cmdStep r c with
    | mk s2 e =>
      rw [hstep] at h2
      subst h2
      rw [cmdFold_cons, hstep]
      simp only [forEachSeriesE, hstep]
      exact ih s2

theorem cmdProcessQueue_fst (r : CmdRun) (cmds : List AsyncCmd) :
    (cmdProcessQueue r cmds).1 = cmdFold r cmds := by
  cases cmds with
  | nil => rfl
  | cons c rest => simp [cmdProcessQueue, forEachSeriesE_cmdStep]

theorem cmdFold_append (xs ys : List AsyncCmd) (r : CmdRun) :
    cmdFold r (xs ++ ys) = cmdFold (cmdFold r xs) ys := by
  simp [cmdFold, List.foldl_append]

theorem cmdRunBatches_join : ∀ (bs : List (List AsyncCmd)) (r : CmdRun),
    cmdRunBatches r bs = cmdFold r bs.flatten := by
  intro bs
  induction bs with
  | nil => intro r; rfl
  | cons b rest ih =>
    intro r
    rw [show (b :: rest).flatten = b ++ rest.flatten from rfl, cmdFold_append]
    show cmdRunBatches (cmdProcessQueue r b).1 rest = _
    rw [cmdProcessQueue_fst, ih]

theorem cmdFold_characterization :
    ∀ (cmds : List AsyncCmd) (em : Option String) (inv : List Nat),
      cmdFold ⟨⟨false, em⟩, inv⟩ cmds =
        ⟨specStateFrom em cmds, inv ++ specInvoked cmds⟩ := by
  intro cmds
  induction cmds with
  | nil => intro em inv; simp [cmdFold, specStateFrom, specInvoked]
  | cons c rest ih =>
    intro em inv
    cases hc : c.outcome with
    | ok u =>
      have hok : isOkCmd c = true := by simp [isOkCmd, hc]
      have h1 : cmdFold ⟨⟨false, em⟩, inv⟩ (c :: rest) =
          cmdFold ⟨⟨false, em⟩, inv ++ [c.id]⟩ rest := by
        rw [cmdFold_cons]
        simp [cmdStep, hc]
      rw [h1, ih em (inv ++ [c.id])]
      unfold specStateFrom specInvoked
      simp only [List.dropWhile_cons, List.takeWhile_cons, hok, if_true]
      cases hdrop : rest.dropWhile isOkCmd <;> simp
    | error m =>
      have hok : isOkCmd c = false := by simp [isOkCmd, hc]
      have h1 : cmdFold ⟨⟨false, em⟩, inv⟩ (c :: rest) =
          cmdFold ⟨⟨true, some m⟩, inv ++ [c.id]⟩ rest := by
        rw [cmdFold_cons]
        simp [cmdStep, hc]
      rw [h1, cmdFold_failed rest _ rfl]
      unfold specStateFrom specInvoked
      simp [List.dropWhile_cons, List.takeWhile_cons, hok, hc]

/-- Claim C5: in the sequential command queue, once any command fails,
every later command in that flush and in all later flushes is consumed
without its runCommandAsync work being invoked, and the failed flag and
errorMessage set by the first failure are never changed afterwards:
running any sequence of flush snapshots from a fresh queue invokes exactly
the commands up to and including the first failing one, and ends with
failed / errorMessage determined by that first failure (or clean when no
command fails). -/
theorem asyncCommandQueue_fail_fast (bs : List (List AsyncCmd)) :
    cmdRunBatches initCmdRun bs =
      ⟨specStateFrom none bs.flatten, specInvoked bs.flatten⟩ := by
  rw [cmdRunBatches_join]
  simpa using cmdFold_characterization bs.flatten none []

/-! ## Theorems: log page queue -/

/-- Claim C2 counterexample: a snapshot of two pages for records R1 and R2
where create-log fails for R1; the flush aborts after the first page (the
error reaches the flush callback and no events for the R2 page occur),
refuting that processing proceeds to every later page of the snapshot. -/
theorem logPage_batch_abort_counterexample :
    processPages
        ⟨fun p => if p = "logs\\R1" then Except.error "boom" else Except.ok 7,
         fun _ _ => none⟩
        [] [⟨"p1", "R1"⟩, ⟨"p2", "R2"⟩] =
      ([], [LogEvent.createLogCall "logs\\R1", LogEvent.ctxError "boom",
            LogEvent.ctxErrorPage ⟨"p1", "R1"⟩], some "boom") ∧
    LogEvent.createLogCall "logs\\R2" ∉
      (processPages
        ⟨fun p => if p = "logs\\R1" then Except.error "boom" else Except.ok 7,
         fun _ _ => none⟩
        [] [⟨"p1", "R1"⟩, ⟨"p2", "R2"⟩]).2.1 := by
  constructor <;> decide

/-- Claim C2, amended: when the create-log step fails for a page, steps 2
and 3 are skipped for that page and the error is reported for that page,
but the remainder of the batch is aborted rather than processed: no later
page of the snapshot is touched and the flush callback receives the error. -/
theorem logPage_createLog_failure_aborts_batch (env : LogEnv) (m : LogIdMap)
    (p : LogPageInfo) (rest : List LogPageInfo) (e : String)
    (hkey : hasKey m p.recordId = false)
    (hfail : env.createLog (logPath p.recordId) = Except.error e) :
    processPages env m (p :: rest) =
      (m, [LogEvent.createLogCall (logPath p.recordId),
           LogEvent.ctxError e, LogEvent.ctxErrorPage p], some e) := by
  simp [processPages, processPage, logStep1, hkey, hfail]

theorem logPage_createLog_failure_aborts_batch_witness :
    hasKey [] "R1" = false ∧
    (⟨fun p => if p = "logs\\R1" then Except.error "boom" else Except.ok 7,
      fun _ _ => none⟩ : LogEnv).createLog (logPath "R1") = Except.error "boom" ∧
    processPages
        ⟨fun p => if p = "logs\\R1" then Except.error "boom" else Except.ok 7,
         fun _ _ => none⟩
        [] [⟨"q1", "R1"⟩, ⟨"q2", "R2"⟩] =
      ([], [LogEvent.createLogCall (logPath "R1"), LogEvent.ctxError "boom",
            LogEvent.ctxErrorPage ⟨"q1", "R1"⟩], some "boom") :=
  ⟨rfl, rfl,
   logPage_createLog_failure_aborts_batch
     ⟨fun p => if p = "logs\\R1" then Except.error "boom" else Except.ok 7,
      fun _ _ => none⟩
     [] ⟨"q1", "R1"⟩ [⟨"q2", "R2"⟩] "boom" rfl rfl⟩

/-- Claim C6 counterexample: create-log stays failing, so nothing is
memoized; a page for R1 in each of two flush batches issues two create-log
calls for the same record id over the queue's lifetime. -/
theorem logPage_two_createLog_calls_counterexample :
    countCreate
      (runLogBatches ⟨fun _ => Except.error "down", fun _ _ => none⟩ []
        [[⟨"p1", "R1"⟩], [⟨"p2", "R1"⟩]]).2 (logPath "R1") = 2 := by
  decide

theorem string_data_append (s t : String) : (s ++ t).data = s.data ++ t.data := by
  cases s; cases t; rfl

theorem logPath_inj {a b : String} (h : logPath a = logPath b) : a = b := by
  have hd : (logPath a).data = (logPath b).data := congrArg String.data h
  rw [show logPath a = "logs\\" ++ a from rfl, show logPath b = "logs\\" ++ b from rfl,
    string_data_append, string_data_append] at hd
  have h2 := List.append_cancel_left hd
  cases a; cases b
  exact congrArg String.mk h2

theorem countCreate_append (tr1 tr2 : List LogEvent) (path : String) :
    countCreate (tr1 ++ tr2) path = countCreate tr1 path + countCreate tr2 path := by
  induction tr1 with
  | nil => simp [countCreate]
  | cons e tr ih => simp [countCreate, ih, Nat.add_assoc]

theorem countCreate_steps23 (env : LogEnv) (m : LogIdMap) (p : LogPageInfo)
    (path : String) : countCreate (logSteps23 env m p) path = 0 := by
  simp only [logSteps23]
  split <;> simp [countCreate_append, countCreate]

theorem hasKey_cons (k : String) (v : Nat) (m : LogIdMap) (r : String) :
    hasKey ((k, v) :: m) r = if r = k then true else hasKey m r := by
  by_cases h : r = k <;> simp [hasKey, lookupId, h]

theorem processPage_createLog_count (env : LogEnv) (R : String) (id : Nat)
    (hok : env.createLog (logPath R) = Except.ok id)
    (m : LogIdMap) (p : LogPageInfo) :
    (hasKey m R = true →
       countCreate (processPage env m p).2.1 (logPath R) = 0 ∧
       hasKey (processPage env m p).1 R = true) ∧
    (hasKey m R = false →
       (countCreate (processPage env m p).2.1 (logPath R) = 0 ∧
          hasKey (processPage env m p).1 R = false) ∨
       (countCreate (processPage env m p).2.1 (logPath R) = 1 ∧
          hasKey (processPage env m p).1 R = true)) := by
  by_cases hkey : hasKey m p.recordId
  · have hm : (processPage env m p).1 = m := by
      simp [processPage, logStep1, hkey]
    have hcount : countCreate (processPage env m p).2.1 (logPath R) = 0 := by
      simp [processPage, logStep1, hkey, countCreate_steps23, countCreate]
    exact ⟨fun h => ⟨hcount, by rw [hm]; exact h⟩,
           fun h => Or.inl ⟨hcount, by rw [hm]; exact h⟩⟩
  · by_cases hpr : p.recordId = R
    · subst hpr
      constructor
      · intro h
        exact absurd h hkey
      · intro h
        right
        constructor
        · simp [processPage, logStep1, hkey, hok, countCreate_append, countCreate,
            countCreate_steps23]
        · simp [processPage, logStep1, hkey, hok, hasKey_cons]
    · have hne : logPath p.recordId ≠ logPath R := fun hc => hpr (logPath_inj hc)
      cases hc : env.createLog (logPath p.recordId) with
      | error e =>
        have hm : (processPage env m p).1 = m := by
          simp [processPage, logStep1, hkey, hc]
        have hcount : countCreate (processPage env m p).2.1 (logPath R) = 0 := by
          simp [processPage, logStep1, hkey, hc, countCreate, hne]
        exact ⟨fun h => ⟨hcount, by rw [hm]; exact h⟩,
               fun h => Or.inl ⟨hcount, by rw [hm]; exact h⟩⟩
      | ok v =>
        have hmap : hasKey (processPage env m p).1 R = hasKey m R := by
          simp [processPage, logStep1, hkey, hc, hasKey_cons,
            show R ≠ p.recordId from fun hc2 => hpr hc2.symm]
        have hcount : countCreate (processPage env m p).2.1 (logPath R) = 0 := by
          simp [processPage, logStep1, hkey, hc, countCreate_append, countCreate,
            countCreate_steps23, hne]
        exact ⟨fun h => ⟨hcount, hmap.trans h⟩, fun h => Or.inl ⟨hcount, hmap.trans h⟩⟩

theorem processPages_createLog_count (env : LogEnv) (R : String) (id : Nat)
    (hok : env.createLog (logPath R) = Except.ok id) :
    ∀ (pages : List LogPageInfo) (m : LogIdMap),
      (hasKey m R = true →
         countCreate (processPages env m pages).2.1 (logPath R) = 0 ∧
         hasKey (processPages env m pages).1 R = true) ∧
      (hasKey m R = false →
         (countCreate (processPages env m pages).2.1 (logPath R) = 0 ∧
            hasKey (processPages env m pages).1 R = false) ∨
         (countCreate (processPages env m pages).2.1 (logPath R) = 1 ∧
            hasKey (processPages env m pages).1 R = true)) := by
  intro pages
  induction pages with
  | nil =>
    intro m
    exact ⟨fun h => ⟨rfl, h⟩, fun h => Or.inl ⟨rfl, h⟩⟩
  | cons p rest ih =>
    intro m
    obtain ⟨hp1, hp2⟩ := processPage_createLog_count env R id hok m p
    cases hpp : processPage env m p with
    | mk m1 t1 =>
      cases t1 with
      | mk tr1 err =>
        rw [hpp] at hp1 hp2
        cases err with
        | some e =>
          have hres : processPages env m (p :: rest) = (m1, tr1, some e) := by
            simp [processPages, hpp]
          rw [hres]
          exact ⟨hp1, hp2⟩
        | none =>
          obtain ⟨ih1, ih2⟩ := ih m1
          cases hrest : processPages env m1 rest with
          | mk m2 t2 =>
            cases t2 with
            | mk tr2 r2 =>
              rw [hrest] at ih1 ih2
              have hres : processPages env m (p :: rest) = (m2, tr1 ++ tr2, r2) := by
                simp [processPages, hpp, hrest]
              rw [hres]
              simp only at hp1 hp2 ih1 ih2 ⊢
              rw [countCreate_append]
              constructor
              · intro h
                obtain ⟨hc1, hk1⟩ := hp1 h
                obtain ⟨hc2, hk2⟩ := ih1 hk1
                exact ⟨by rw [hc1, hc2], hk2⟩
              · intro h
                rcases hp2 h with ⟨hc1, hk1⟩ | ⟨hc1, hk1⟩
                · rcases ih2 hk1 with ⟨hc2, hk2⟩ | ⟨hc2, hk2⟩
                  · exact Or.inl ⟨by rw [hc1, hc2], hk2⟩
                  · exact Or.inr ⟨by rw [hc1, hc2], hk2⟩
                · obtain ⟨hc2, hk2⟩ := ih1 hk1
                  exact Or.inr ⟨by rw [hc1, hc2], hk2⟩

theorem runLogBatches_createLog_count (env : LogEnv) (R : String) (id : Nat)
    (hok : env.createLog (logPath R) = Except.ok id) :
    ∀ (bs : List (List LogPageInfo)) (m : LogIdMap),
      (hasKey m R = true →
         countCreate (runLogBatches env m bs).2 (logPath R) = 0) ∧
      (hasKey m R = false →
         countCreate (runLogBatches env m bs).2 (logPath R) ≤ 1) := by
  intro bs
  induction bs with
  | nil =>
    intro m
    exact ⟨fun _ => rfl, fun _ => by simp [runLogBatches, countCreate]⟩
  | cons b rest ih =>
    intro m
    obtain ⟨hb1, hb2⟩ := processPages_createLog_count env R id hok b m
    cases hbb : processPages env m b with
    | mk m1 t1 =>
      cases t1 with
      | mk tr1 err =>
        rw [hbb] at hb1 hb2
        obtain ⟨ih1, ih2⟩ := ih m1
        cases hrest : runLogBatches env m1 rest with
        | mk m2 tr2 =>
          rw [hrest] at ih1 ih2
          have hres : runLogBatches env m (b :: rest) = (m2, tr1 ++ tr2) := by
            simp [runLogBatches, hbb, hrest]
          rw [hres]
          simp only at hb1 hb2 ih1 ih2 ⊢
          rw [countCreate_append]
          constructor
          · intro h
            obtain ⟨hc1, hk1⟩ := hb1 h
            rw [hc1, ih1 hk1]
          · intro h
            rcases hb2 h with ⟨hc1, hk1⟩ | ⟨hc1, hk1⟩
            · rw [hc1]
              simpa using ih2 hk1
            · rw [hc1, ih1 hk1]

/-- Claim C6, amended: once a create-log call for a record id succeeds, the
returned log id is memoized and no further create-log call is ever issued
for that id across the whole lifetime of the queue, even with pages spread
over multiple flush batches: for a record id whose create-log calls
succeed, at most one create-log call is issued in total. When a create-log
attempt fails nothing is memoized, and a later page for the same id issues
another create-log call. -/
theorem logPage_createLog_memoized (env : LogEnv) (bs : List (List LogPageInfo))
    (R : String) (id : Nat)
    (hok : env.createLog (logPath R) = Except.ok id) :
    countCreate (runLogBatches env [] bs).2 (logPath R) ≤ 1 :=
  (runLogBatches_createLog_count env R id hok bs []).2 rfl

theorem logPage_createLog_memoized_witness :
    (⟨fun _ => Except.ok 7, fun _ _ => none⟩ : LogEnv).createLog (logPath "R1") =
        Except.ok 7 ∧
    countCreate
      (runLogBatches ⟨fun _ => Except.ok 7, fun _ _ => none⟩ []
        [[⟨"pa", "R1"⟩], [⟨"pb", "R1"⟩]]).2 (logPath "R1") ≤ 1 :=
  ⟨rfl,
   logPage_createLog_memoized ⟨fun _ => Except.ok 7, fun _ _ => none⟩
     [[⟨"pa", "R1"⟩], [⟨"pb", "R1"⟩]] "R1" 7 rfl⟩
